import Mathlib

/-!
Verification development for the "nospoilers" repository.

JavaScript strings are modelled as `List Char`; JavaScript numbers that can
be an integer, `NaN`, or `undefined` are modelled by the inductive `JNum`
(integer values are idealised as exact `Int`, which is faithful for the
small record counts and scores this code handles).  `parseInt(s, 10)` is
modelled by `parseIntJS`; `s.split('-')` by `splitDash`.
-/

namespace NoSpoilers

/-- Whitespace test used when modelling `parseInt`'s leading-whitespace skip
(the common ASCII whitespace code points). -/
def isSpaceC (c : Char) : Bool :=
  c.toNat = 32 || c.toNat = 9 || c.toNat = 10 || c.toNat = 13 || c.toNat = 11 || c.toNat = 12

/-- Decimal digit test (code points 48–57, i.e. `'0'`–`'9'`). -/
def isDig (c : Char) : Bool :=
  48 ≤ c.toNat && c.toNat ≤ 57

/-- Test for the `'-'` character (code point 45). -/
def isDash (c : Char) : Bool :=
  c.toNat = 45

/-- Test for the `'+'` character (code point 43). -/
def isPlus (c : Char) : Bool :=
  c.toNat = 43

/-- Numeric value of a digit character. -/
def digitVal (c : Char) : Nat := c.toNat - 48

/-- Value of a list of digit characters read in base 10. -/
def digitsVal (ds : List Char) : Nat :=
  ds.foldl (fun a c => 10 * a + digitVal c) 0

/-- Model of JavaScript `parseInt(s, 10)`: skip leading whitespace, read an
optional sign, then the longest prefix of decimal digits; `none` models the
`NaN` result when no digit is found. -/
def parseIntJS (cs : List Char) : Option Int :=
  let cs1 := cs.dropWhile isSpaceC
  match cs1 with
  | [] => none
  | c :: rest =>
    let sign : Int := if isDash c then -1 else 1
    let body := if isDash c || isPlus c then rest else c :: rest
    let ds := body.takeWhile isDig
    if ds.isEmpty then none else some (sign * (digitsVal ds : Int))

/-- Model of JavaScript `s.split('-')`: splits on every `'-'`, keeping empty
pieces, and returns `[[]]` on the empty string. -/
def splitDash : List Char → List (List Char)
  | [] => [[]]
  | c :: cs =>
    if isDash c then [] :: splitDash cs
    else
      match splitDash cs with
      | [] => [[c]]
      | p :: ps => (c :: p) :: ps

/-- The digit character for a value in `0..9` (clamped to `'9'` above). -/
def digitChar10 (d : Nat) : Char :=
  if d = 0 then '0' else if d = 1 then '1' else if d = 2 then '2'
  else if d = 3 then '3' else if d = 4 then '4' else if d = 5 then '5'
  else if d = 6 then '6' else if d = 7 then '7' else if d = 8 then '8' else '9'

/-- Fuelled base-10 printer for naturals (fuel `n+1` always suffices). -/
def natToCharsAux : Nat → Nat → List Char
  | 0, _ => []
  | fuel + 1, n =>
    if n < 10 then [digitChar10 n]
    else natToCharsAux fuel (n / 10) ++ [digitChar10 (n % 10)]

/-- Decimal digit string of a natural number, as JavaScript prints a
non-negative integer-valued number. -/
def natToChars (n : Nat) : List Char := natToCharsAux (n + 1) n

/-- Decimal string of an integer, as JavaScript prints an integer-valued
number inside a template literal. -/
def intToChars (n : Int) : List Char :=
  if n < 0 then '-' :: natToChars (-n).toNat else natToChars n.toNat

/-- A JavaScript numeric slot as it occurs in the record code: an integer
value, `NaN`, or `undefined` (from destructuring a too-short array). -/
inductive JNum where
  | int : Int → JNum
  | nan : JNum
  | undefinedV : JNum
  deriving DecidableEq

/-- JavaScript `x - 1` on a `JNum` (`undefined - 1` and `NaN - 1` are `NaN`). -/
def jsub1 : JNum → JNum
  | .int n => .int (n - 1)
  | _ => .nan

/-- JavaScript `Math.max(0, x)` on a `JNum` (`NaN` propagates; `undefined`
coerces to `NaN`). -/
def jmax0 : JNum → JNum
  | .int n => .int (max 0 n)
  | _ => .nan

/-- JavaScript `x || 0` on a `JNum` (falsy `0`, `NaN` and `undefined` give `0`). -/
def jor0 : JNum → JNum
  | .int n => if n = 0 then .int 0 else .int n
  | _ => .int 0

/-- JavaScript truthiness of a `JNum` (`0`, `NaN`, `undefined` are falsy). -/
def jtruthy : JNum → Bool
  | .int n => n ≠ 0
  | _ => false

/-- JavaScript `x > 0` on a `JNum` (`false` for `NaN` and `undefined`). -/
def jgt0 : JNum → Bool
  | .int n => 0 < n
  | _ => false

/-- Template-literal rendering of a `JNum` (`NaN` prints as `"NaN"`,
`undefined` prints as `"undefined"`). -/
def jnumToChars : JNum → List Char
  | .int n => intToChars n
  | .nan => ['N', 'a', 'N']
  | .undefinedV => ['u', 'n', 'd', 'e', 'f', 'i', 'n', 'e', 'd']

/-- The game result fed to record reversion, `'win' | 'loss' | 'tie'`. -/
inductive GameResult where
  | win : GameResult
  | loss : GameResult
  | tie : GameResult
  deriving DecidableEq

/-- `record.split('-').map(s => parseInt(s, 10))`. -/
def partsOf (cs : List Char) : List (Option Int) :=
  (splitDash cs).map parseIntJS

/-- Array destructuring `let [w, l, t] = parts` at position `i`: the parsed
integer when present, `undefined` past the end (`.nan` for an unparsable slot,
which the `some(isNaN)` guard has already excluded when this is reached). -/
def getPart (ps : List (Option Int)) (i : Nat) : JNum :=
  match ps.get? i with
  | some (some n) => .int n
  | some none => .nan
  | none => .undefinedV

/-- Embedding of `revertRecord` (src/services/gemini.ts, lines 167–181) on
character lists. -/
def revertRecordChars (cs : List Char) (result : GameResult) : List Char :=
  if cs = [] then []
  else
    let parts := partsOf cs
    if parts.any Option.isNone then cs
    else
      let w0 := getPart parts 0
      let l0 := getPart parts 1
      let t0 := getPart parts 2
      let w := if result = .win then jmax0 (jsub1 w0) else w0
      let l := if result = .loss then jmax0 (jsub1 l0) else l0
      let t := if result = .tie then jmax0 (jsub1 (jor0 t0)) else t0
      if jtruthy t && jgt0 t then
        jnumToChars w ++ '-' :: jnumToChars l ++ '-' :: jnumToChars t
      else
        jnumToChars w ++ '-' :: jnumToChars l

/-- `revertRecord` from src/services/gemini.ts at the `String` boundary. -/
def revertRecord (record : String) (result : GameResult) : String :=
  ⟨revertRecordChars record.data result⟩

/-- Embedding of `getPreGameRecord` (src/components/GameCard.tsx, lines
25–39) on character lists; it differs from `revertRecordChars` only in the
final serialization test (`t > 0` instead of `t && t > 0`). -/
def getPreGameRecordChars (cs : List Char) (result : GameResult) : List Char :=
  if cs = [] then []
  else
    let parts := partsOf cs
    if parts.any Option.isNone then cs
    else
      let w0 := getPart parts 0
      let l0 := getPart parts 1
      let t0 := getPart parts 2
      let w := if result = .win then jmax0 (jsub1 w0) else w0
      let l := if result = .loss then jmax0 (jsub1 l0) else l0
      let t := if result = .tie then jmax0 (jsub1 (jor0 t0)) else t0
      if jgt0 t then
        jnumToChars w ++ '-' :: jnumToChars l ++ '-' :: jnumToChars t
      else
        jnumToChars w ++ '-' :: jnumToChars l

/-- `getPreGameRecord` from src/components/GameCard.tsx at the `String`
boundary. -/
def getPreGameRecord (record : String) (result : GameResult) : String :=
  ⟨getPreGameRecordChars record.data result⟩

/-!  Result computation and record adjustment (src/services/gemini.ts,
src/components/GameCard.tsx). -/

/-- JavaScript `a > b` where either side may be `NaN` (`none`); any
comparison with `NaN` is false. -/
def jsGT : Option Int → Option Int → Bool
  | some a, some b => a > b
  | _, _ => false

/-- JavaScript `a < b` where either side may be `NaN` (`none`). -/
def jsLT : Option Int → Option Int → Bool
  | some a, some b => a < b
  | _, _ => false

/-- Embedding of the result computation inside the current-week loop of
`adjustRecordsForFutureWeek` (src/services/gemini.ts, lines 240–243):
`win` if `score > opponentScore`, `loss` if `score < opponentScore`,
else `tie`. -/
def computeResultService (score opponentScore : Option Int) : GameResult :=
  if jsGT score opponentScore then .win
  else if jsLT score opponentScore then .loss
  else .tie

/-- Embedding of the result computation inside `getDisplayRecord`
(src/components/GameCard.tsx, lines 48–60). -/
def computeResultCard (isHome : Bool) (homeScore awayScore : Int) : GameResult :=
  let homeWon := homeScore > awayScore
  let awayWon := awayScore > homeScore
  let tied := homeScore = awayScore
  let result : GameResult :=
    if isHome then
      if homeWon then .win else if awayWon then .loss else .tie
    else
      if awayWon then .win else if homeWon then .loss else .tie
  if tied then .tie else result

/-- `string | number` as it appears in `GameSpoilerData` (src/types.ts). -/
inductive StrNum where
  | str : String → StrNum
  | num : Int → StrNum
  deriving DecidableEq

/-- `GameSpoilerData` from src/types.ts. -/
structure GameSpoilerData where
  homeScore : StrNum
  awayScore : StrNum
  summary : String
  deriving DecidableEq

/-- The `Game` interface from src/types.ts (the `excitementScore` field is
`number | null` at runtime, modelled as `Option Int`-free rational option). -/
structure Game where
  id : String
  homeTeam : String
  awayTeam : String
  homeTeamLogo : Option String
  awayTeamLogo : Option String
  homeScore : Int
  awayScore : Int
  homeRecord : String
  awayRecord : String
  status : String
  kickoffTime : String
  dayOfWeek : String
  dateLabel : String
  weekLabel : String
  excitementScore : Option ℚ
  spoilerData : GameSpoilerData
  broadcaster : Option String
  isUpcoming : Option Bool
  isLive : Option Bool
  odds : Option String
  deriving DecidableEq

/-- Embedding of `getDisplayRecord` (src/components/GameCard.tsx, lines
41–63).  `isFinal` abbreviates `game.status === 'Final'` (line 41); the
`isRevealed` component state and the record/side arguments are explicit. -/
def getDisplayRecord (game : Game) (isRevealed : Bool)
    (currentRecord : String) (isHome : Bool) : String :=
  let isFinal := game.status = "Final"
  if ¬ isFinal then currentRecord
  else if isRevealed then currentRecord
  else getPreGameRecord currentRecord
    (computeResultCard isHome game.homeScore game.awayScore)

/-- `competitor.team` as read by `adjustRecordsForFutureWeek`. -/
structure TeamInfo where
  shortDisplayName : Option String
  displayName : Option String

/-- A competitor inside an ESPN scoreboard event. -/
structure Competitor where
  id : String
  team : Option TeamInfo
  score : Option String

/-- A competition inside an ESPN scoreboard event. -/
structure Competition where
  competitors : List Competitor

/-- An ESPN scoreboard event as read by `adjustRecordsForFutureWeek`
(`statusState` is `event.status?.type?.state`). -/
structure Event where
  statusState : Option String
  competitions : List Competition

/-- JavaScript `a || b` on possibly-undefined strings (the empty string is
falsy). -/
def jsOrStr : Option String → Option String → Option String
  | some s, b => if s = "" then b else some s
  | none, b => b

/-- JavaScript `s || '0'` on a possibly-undefined string. -/
def jsOrZero : Option String → String
  | some s => if s = "" then "0" else s
  | none => "0"

/-- `competitor.team?.shortDisplayName || competitor.team?.displayName`
(src/services/gemini.ts, line 232). -/
def teamNameOf (c : Competitor) : Option String :=
  jsOrStr (c.team.bind TeamInfo.shortDisplayName) (c.team.bind TeamInfo.displayName)

/-- The team → result map built from the current week's completed events
(src/services/gemini.ts, lines 219–247).  The JavaScript `Map` is modelled
as an association list where the most recent `set` is at the head. -/
def buildTeamResults (events : List Event) : List (String × GameResult) :=
  events.foldl
    (fun acc ev =>
      if ev.statusState ≠ some "post" then acc
      else
        let competitors := ((ev.competitions.head?).map Competition.competitors).getD []
        competitors.foldl
          (fun acc2 c =>
            match teamNameOf c with
            | none => acc2
            | some name =>
              if name = "" then acc2
              else
                let score := parseIntJS (jsOrZero c.score).data
                let opponentScore := parseIntJS
                  (jsOrZero ((competitors.find? (fun x => x.id ≠ c.id)).bind Competitor.score)).data
                (name, computeResultService score opponentScore) :: acc2)
          acc)
    []

/-- `Map.get` on the association-list model (head is the latest `set`). -/
def mapGet (m : List (String × GameResult)) (k : String) : Option GameResult :=
  (m.find? (fun p => p.1 = k)).map Prod.snd

/-- Outcome of the `fetch` of the current week's scoreboard: `fail` covers a
non-ok response and a thrown exception (both return the input unchanged),
`ok` carries the parsed events list. -/
inductive FetchOutcome where
  | fail : FetchOutcome
  | ok : List Event → FetchOutcome

/-- Embedding of `adjustRecordsForFutureWeek` (src/services/gemini.ts, lines
190–273), with the network interaction abstracted into the `fetchOutcome`
argument. -/
def adjustRecordsForFutureWeek (games : List Game)
    (viewingWeek currentWeek : Int) (fetchOutcome : FetchOutcome) : List Game :=
  if currentWeek > 18 then games
  else if viewingWeek > 18 ∨ viewingWeek ≤ currentWeek then games
  else
    match fetchOutcome with
    | .fail => games
    | .ok events =>
      let teamResults := buildTeamResults events
      games.map fun game =>
        let homeResult := mapGet teamResults game.homeTeam
        let awayResult := mapGet teamResults game.awayTeam
        let adjustedHomeRecord :=
          match homeResult with
          | some r => revertRecord game.homeRecord r
          | none => game.homeRecord
        let adjustedAwayRecord :=
          match awayResult with
          | some r => revertRecord game.awayRecord r
          | none => game.awayRecord
        { game with homeRecord := adjustedHomeRecord, awayRecord := adjustedAwayRecord }

/-- Two games agree on every field except possibly `homeRecord` and
`awayRecord`. -/
def eqExceptRecords (g g' : Game) : Prop :=
  g.id = g'.id ∧ g.homeTeam = g'.homeTeam ∧ g.awayTeam = g'.awayTeam ∧
  g.homeTeamLogo = g'.homeTeamLogo ∧ g.awayTeamLogo = g'.awayTeamLogo ∧
  g.homeScore = g'.homeScore ∧ g.awayScore = g'.awayScore ∧
  g.status = g'.status ∧ g.kickoffTime = g'.kickoffTime ∧
  g.dayOfWeek = g'.dayOfWeek ∧ g.dateLabel = g'.dateLabel ∧
  g.weekLabel = g'.weekLabel ∧ g.excitementScore = g'.excitementScore ∧
  g.spoilerData = g'.spoilerData ∧ g.broadcaster = g'.broadcaster ∧
  g.isUpcoming = g'.isUpcoming ∧ g.isLive = g'.isLive ∧ g.odds = g'.odds

/-!  Spec-side predicates for the record format. -/

/-- A nonempty all-digit component, i.e. one `\d+` group of the spec's
record pattern. -/
def isDigStr (p : List Char) : Bool :=
  !p.isEmpty && p.all isDig

/-- The spec's record format `^\d+-\d+(-\d+)?$`, phrased through the split
into `-`-separated components. -/
def isWellFormedRecord (cs : List Char) : Bool :=
  match splitDash cs with
  | [a, b] => isDigStr a && isDigStr b
  | [a, b, c] => isDigStr a && isDigStr b && isDigStr c
  | _ => false

/-- Serialization of a reverted record from its numeric components: the tie
suffix is emitted exactly when the resulting tie count is positive. -/
def serializeRec (w l t : Int) : String :=
  if 0 < t then ⟨intToChars w ++ '-' :: intToChars l ++ '-' :: intToChars t⟩
  else ⟨intToChars w ++ '-' :: intToChars l⟩

/-!  The excitement scoring engine.

The engine itself lives in the repository's Python backend (`backend/main.py`),
which is not among the provided source files — only its README, run script and
callers are.  The definitions below are therefore modelled from the spec
(§2, §4.1–§4.5), with real arithmetic idealised as exact rationals. -/

/-- Game lifecycle state `{pre, in, post}` (`in` is a reserved word, so the
middle state is named `live`). -/
inductive GameState where
  | pre : GameState
  | live : GameState
  | post : GameState
  deriving DecidableEq

/-- Modelled from the spec: the Probability Normalizer (§4.1) of the missing
backend scorer — a value greater than 2.0 is a percentage and is divided by
100, otherwise it is already a fraction. -/
def normalizeProb (p : ℚ) : ℚ :=
  if p > 2 then p / 100 else p

/-- Modelled from the spec: the Score Clamper (§4.5) of the missing backend
scorer — bounds a value to `[1.0, 10.0]`. -/
def clampScore (x : ℚ) : ℚ :=
  max 1 (min 10 x)

/-- Modelled from the spec: the Fallback Estimator (§4.2) of the missing
backend scorer, before the final clamp — margin and total-points
adjustments on a baseline of 5.0, with the overtime floor at 8.0. -/
def fallbackRaw (home away : Nat) (isOvertime : Bool) : ℚ :=
  let margin := max home away - min home away
  let total := home + away
  let s : ℚ := 5
  let s :=
    if margin = 0 then s + 4
    else if margin ≤ 3 then s + 3
    else if margin ≤ 8 then s + 2
    else if margin ≤ 14 then s + 1/2
    else if margin > 24 then s - 3
    else s
  let s :=
    if total > 60 then s + 1
    else if total > 45 then s + 1/2
    else if total < 24 then s - 1
    else s
  if isOvertime then max s 8 else s

/-- Modelled from the spec: the time weight of a step (§4.3) of the missing
backend scorer, from the step's position fraction. -/
def timeWeight (progress : ℚ) : ℚ :=
  if progress > 96/100 then 15
  else if progress > 9/10 then 5
  else if progress > 7/10 then 3
  else if progress < 1/4 then 1/2
  else 1

/-- Modelled from the spec: accumulation of time-weighted swings (§4.3) of
the missing backend scorer; `i` is the 0-based index of the earlier element
of the current consecutive pair, `n` the trace length. -/
def weightedVolAux (n : ℕ) : ℕ → List ℚ → ℚ
  | i, p :: q :: rest =>
    |q - p| * timeWeight ((i + 1 : ℚ) / n) + weightedVolAux n (i + 1) (q :: rest)
  | _, _ => 0

/-- Modelled from the spec: the summed time-weighted volatility (§4.3) of
the missing backend scorer over the winner-probability trace. -/
def weightedVol (wps : List ℚ) : ℚ :=
  weightedVolAux wps.length 0 wps

/-- Minimum of a list of rationals (0 on the empty list; only applied to
nonempty traces). -/
def qListMin : List ℚ → ℚ
  | [] => 0
  | x :: xs => xs.foldl min x

/-- Maximum of a list of rationals (0 on the empty list; only applied to
nonempty traces). -/
def qListMax : List ℚ → ℚ
  | [] => 0
  | x :: xs => xs.foldl max x

/-- Modelled from the spec: the count of late lead changes (§4.3) of the
missing backend scorer — sign changes of `p - 0.5` between consecutive
steps, ties at exactly 0.5 never counting. -/
def signChanges : List ℚ → ℕ
  | p :: q :: rest =>
    (if (p < 1/2 ∧ 1/2 < q) ∨ (1/2 < p ∧ q < 1/2) then 1 else 0) + signChanges (q :: rest)
  | _ => 0

/-- Modelled from the spec: the Volatility Scorer and Bonus/Penalty Adjuster
(§4.3–§4.4) of the missing backend scorer, before the final clamp. -/
def traceScoreRaw (probs : List ℚ) (homeScore awayScore : Nat) (isOvertime : Bool) : ℚ :=
  let n := probs.length
  let homeWon := homeScore > awayScore
  let wps := probs.map (fun p => if homeWon then p else 1 - p)
  let minW := qListMin wps
  let maxW := qListMax wps
  let lateStart := (9 * n) / 10
  let lateWindow := wps.drop lateStart
  let lateMin := qListMin lateWindow
  let lateLeadChanges := signChanges lateWindow
  let garbageCount := (probs.drop 1).countP (fun p => p < 1/20 ∨ p > 19/20)
  let base := 2 + 3/2 * weightedVol wps
  let s := base
  let s :=
    if minW ≤ 1/20 then s + 2
    else if minW ≤ 3/20 then s + 3/2
    else if minW ≤ 1/4 then s + 1
    else s
  let s := if maxW ≤ 9/10 then s + 1 else s
  let s := if lateMin < 3/5 then s + 3/2 else s
  let s := if lateMin < 1/2 then s + 3/2 else s
  let s := if lateLeadChanges > 0 then s + 1 + (1/2) * lateLeadChanges else s
  let margin := max homeScore awayScore - min homeScore awayScore
  let s := if margin ≤ 3 then s + 1 else if margin ≤ 7 then s + 1/2 else s
  let s := if margin > 16 then s - 2 else s
  let s := if (garbageCount : ℚ) / n > 1/2 then s - 2 else s
  let s := if homeScore + awayScore > 60 then s + 1/2 else s
  if isOvertime then s + 2 else s

/-- Modelled from the spec: the full excitement scoring engine (§2, §6) of
the missing backend — 0.0 for a game in the `pre` state, otherwise the
fallback or trace-based estimate with the clamp to `[1.0, 10.0]` as the
final operation on both paths. -/
def excitementScore (trace : List ℚ) (homeScore awayScore : Nat)
    (isOvertime : Bool) (state : GameState) : ℚ :=
  if state = .pre then 0
  else
    clampScore
      (if trace.length < 1 then fallbackRaw homeScore awayScore isOvertime
       else traceScoreRaw (trace.map normalizeProb) homeScore awayScore isOvertime)

/-!  Helper lemmas. -/

theorem isDig_not_space {c : Char} (h : isDig c = true) : isSpaceC c = false := by
  simp [isDig] at h
  simp [isSpaceC]
  omega

theorem isDig_not_dash {c : Char} (h : isDig c = true) : isDash c = false := by
  simp [isDig] at h
  simp [isDash]
  omega

theorem isDig_not_plus {c : Char} (h : isDig c = true) : isPlus c = false := by
  simp [isDig] at h
  simp [isPlus]
  omega

theorem isDig_digitChar10 (d : Nat) : isDig (digitChar10 d) = true := by
  unfold digitChar10
  split_ifs <;> rfl

theorem natToCharsAux_all_dig (fuel : Nat) :
    ∀ n c, c ∈ natToCharsAux fuel n → isDig c = true := by
  induction fuel with
  | zero => intro n c hc; simp [natToCharsAux] at hc
  | succ fuel ih =>
    intro n c hc
    unfold natToCharsAux at hc
    by_cases h : n < 10
    · rw [if_pos h] at hc
      simp at hc
      rw [hc]; exact isDig_digitChar10 n
    · rw [if_neg h] at hc
      rcases List.mem_append.mp hc with h1 | h1
      · exact ih _ _ h1
      · simp at h1
        rw [h1]; exact isDig_digitChar10 _

theorem natToChars_all_dig (n : Nat) : ∀ c ∈ natToChars n, isDig c = true :=
  fun c hc => natToCharsAux_all_dig (n + 1) n c hc

theorem natToChars_ne_nil (n : Nat) : natToChars n ≠ [] := by
  unfold natToChars natToCharsAux
  by_cases h : n < 10
  · simp [h]
  · rw [if_neg h]
    simp

theorem intToChars_nonneg {n : Int} (h : 0 ≤ n) : intToChars n = natToChars n.toNat := by
  unfold intToChars
  rw [if_neg (by omega)]

theorem splitDash_ne_nil (cs : List Char) : splitDash cs ≠ [] := by
  induction cs with
  | nil => simp [splitDash]
  | cons c cs ih =>
    unfold splitDash
    by_cases h : isDash c
    · simp [h]
    · rw [if_neg h]
      rcases e : splitDash cs with _ | ⟨p, ps⟩
      · exact absurd e ih
      · simp

theorem splitDash_no_dash (cs : List Char) :
    ∀ p ∈ splitDash cs, ∀ c ∈ p, isDash c = false := by
  induction cs with
  | nil =>
    intro p hp c hc
    simp [splitDash] at hp
    rw [hp] at hc
    simp at hc
  | cons a cs ih =>
    intro p hp c hc
    unfold splitDash at hp
    by_cases h : isDash a
    · rw [if_pos h] at hp
      rcases List.mem_cons.mp hp with h1 | h1
      · rw [h1] at hc; simp at hc
      · exact ih p h1 c hc
    · rw [if_neg h] at hp
      rcases e : splitDash cs with _ | ⟨q, ps⟩
      · exact absurd e (splitDash_ne_nil cs)
      · rw [e] at hp
        rcases List.mem_cons.mp hp with h1 | h1
        · rw [h1] at hc
          rcases List.mem_cons.mp hc with h2 | h2
          · rw [h2]
            exact Bool.eq_false_iff.mpr h
          · exact ih q (e ▸ List.mem_cons_self q ps) c h2
        · exact ih p (e ▸ List.mem_cons_of_mem q h1) c hc

theorem splitDash_of_no_dash (cs : List Char) (h : ∀ c ∈ cs, isDash c = false) :
    splitDash cs = [cs] := by
  induction cs with
  | nil => rfl
  | cons a cs ih =>
    unfold splitDash
    rw [if_neg (by rw [h a (List.mem_cons_self a cs)]; exact Bool.false_ne_true),
      ih (fun c hc => h c (List.mem_cons_of_mem a hc))]

theorem splitDash_append_dash (x y : List Char) (h : ∀ c ∈ x, isDash c = false) :
    splitDash (x ++ '-' :: y) = x :: splitDash y := by
  induction x with
  | nil =>
    show splitDash ('-' :: y) = [] :: splitDash y
    have hd : isDash '-' = true := by decide
    conv_lhs => unfold splitDash
    rw [if_pos hd]
  | cons a x ih =>
    show splitDash (a :: (x ++ '-' :: y)) = (a :: x) :: splitDash y
    have ha : ¬ (isDash a = true) := by
      rw [h a (List.mem_cons_self a x)]; exact Bool.false_ne_true
    conv_lhs => unfold splitDash
    rw [if_neg ha, ih (fun c hc => h c (List.mem_cons_of_mem a hc))]

theorem parseIntJS_digits (ds : List Char) (hne : ds ≠ [])
    (hdig : ∀ c ∈ ds, isDig c = true) :
    parseIntJS ds = some (digitsVal ds : Int) := by
  rcases ds with _ | ⟨c, rest⟩
  · exact absurd rfl hne
  · have hc : isDig c = true := hdig c (List.mem_cons_self c rest)
    have hdrop : (c :: rest).dropWhile isSpaceC = c :: rest := by
      rw [List.dropWhile_cons_of_neg]
      rw [isDig_not_space hc]
      exact Bool.false_ne_true
    have htake : (c :: rest).takeWhile isDig = c :: rest :=
      List.takeWhile_eq_self_iff.mpr hdig
    unfold parseIntJS
    rw [hdrop]
    simp only [isDig_not_dash hc, isDig_not_plus hc, Bool.or_self, if_false,
      Bool.false_eq_true, htake]
    rw [if_neg (by simp)]
    simp

theorem parseIntJS_nonneg {p : List Char} {n : Int}
    (hnd : ∀ c ∈ p, isDash c = false) (h : parseIntJS p = some n) : 0 ≤ n := by
  unfold parseIntJS at h
  rcases e : p.dropWhile isSpaceC with _ | ⟨c, rest⟩
  · rw [e] at h; simp at h
  · rw [e] at h
    have hcp : c ∈ p := by
      have := (List.dropWhile_sublist (p := isSpaceC) (l := p)).subset
      exact this (e ▸ List.mem_cons_self c rest)
    have hcd : isDash c = false := hnd c hcp
    simp only [hcd, if_false, Bool.false_eq_true] at h
    by_cases hds : ((if (false || isPlus c) = true then rest else c :: rest).takeWhile isDig).isEmpty
    · rw [if_pos hds] at h; simp at h
    · rw [if_neg hds] at h
      have := Option.some.inj h
      rw [← this]
      positivity


theorem jor0_int (t : Int) : jor0 (.int t) = .int t := by
  show (if t = 0 then JNum.int 0 else JNum.int t) = JNum.int t
  split_ifs with h
  · rw [h]
  · rfl

theorem jcond_eq (t : JNum) : (jtruthy t && jgt0 t) = jgt0 t := by
  cases t with
  | int n =>
    simp [jtruthy, jgt0]
    omega
  | nan => rfl
  | undefinedV => rfl

theorem partsOf_nil_ne (w rest : List (Option Int)) (x : Option Int)
    (h : partsOf [] = x :: w ++ rest) : x = none := by
  simp [partsOf, splitDash, parseIntJS] at h
  exact h.1.symm

theorem string_mk_data (s : String) : String.mk s.data = s := rfl

theorem malformed_unchanged (record : String) (result : GameResult)
    (h : ∃ p ∈ splitDash record.data, parseIntJS p = none) :
    revertRecord record result = record := by
  unfold revertRecord
  rcases h with ⟨p, hp, hnone⟩
  by_cases hnil : record.data = []
  · rw [show revertRecordChars record.data result = record.data by
      rw [hnil]; rfl]
  · have hany : (partsOf record.data).any Option.isNone = true := by
      apply List.any_eq_true.mpr
      exact ⟨parseIntJS p, List.mem_map_of_mem parseIntJS hp, by rw [hnone]; rfl⟩
    rw [show revertRecordChars record.data result = record.data by
      unfold revertRecordChars
      rw [if_neg hnil]
      simp only [hany, if_true]]

theorem revertRecordChars_formula₂ (cs : List Char) (result : GameResult)
    (w l : Int) (h : partsOf cs = [some w, some l]) :
    revertRecordChars cs result =
      intToChars (if result = .win then max 0 (w - 1) else w) ++
        '-' :: intToChars (if result = .loss then max 0 (l - 1) else l) := by
  have hcs : cs ≠ [] := by
    intro e
    rw [e] at h
    simp [partsOf, splitDash, parseIntJS] at h
  unfold revertRecordChars
  rw [if_neg hcs]
  simp only [h, List.any_cons, List.any_nil, Option.isNone_some, Bool.or_self,
    Bool.or_false, Bool.false_eq_true, if_false, getPart, List.get?_cons_zero,
    List.get?_cons_succ, List.get?_nil]
  cases result <;>
    simp [jsub1, jmax0, jor0, jtruthy, jgt0, jnumToChars]

theorem revertRecordChars_formula₃ (cs : List Char) (result : GameResult)
    (w l t : Int) (h : partsOf cs = [some w, some l, some t]) :
    revertRecordChars cs result =
      (serializeRec (if result = .win then max 0 (w - 1) else w)
        (if result = .loss then max 0 (l - 1) else l)
        (if result = .tie then max 0 (t - 1) else t)).data := by
  have hcs : cs ≠ [] := by
    intro e
    rw [e] at h
    simp [partsOf, splitDash, parseIntJS] at h
  unfold revertRecordChars
  rw [if_neg hcs]
  simp only [h, List.any_cons, List.any_nil, Option.isNone_some, Bool.or_self,
    Bool.or_false, Bool.false_eq_true, if_false, getPart, List.get?_cons_zero,
    List.get?_cons_succ, List.get?_nil, jor0_int, jcond_eq]
  cases result with
  | win =>
    simp only [reduceCtorEq, reduceIte, jsub1, jmax0, jnumToChars]
    by_cases h1 : 0 < t <;> simp [serializeRec, jgt0, h1]
  | loss =>
    simp only [reduceCtorEq, reduceIte, jsub1, jmax0, jnumToChars]
    by_cases h1 : 0 < t <;> simp [serializeRec, jgt0, h1]
  | tie =>
    simp only [reduceCtorEq, reduceIte, jsub1, jmax0, jnumToChars]
    by_cases h1 : 0 < max 0 (t - 1) <;> simp [serializeRec, jgt0, h1]

theorem revertRecord_formula₂ (record : String) (result : GameResult)
    (w l : Int) (h : partsOf record.data = [some w, some l]) :
    revertRecord record result =
      serializeRec (if result = .win then max 0 (w - 1) else w)
        (if result = .loss then max 0 (l - 1) else l) 0 := by
  unfold revertRecord
  rw [revertRecordChars_formula₂ record.data result w l h]
  simp [serializeRec]

theorem revertRecord_formula₃ (record : String) (result : GameResult)
    (w l t : Int) (h : partsOf record.data = [some w, some l, some t]) :
    revertRecord record result =
      serializeRec (if result = .win then max 0 (w - 1) else w)
        (if result = .loss then max 0 (l - 1) else l)
        (if result = .tie then max 0 (t - 1) else t) := by
  unfold revertRecord
  rw [revertRecordChars_formula₃ record.data result w l t h]

theorem isDigStr_natToChars (n : Nat) : isDigStr (natToChars n) = true := by
  unfold isDigStr
  rw [List.all_eq_true.mpr (natToChars_all_dig n)]
  rw [show (natToChars n).isEmpty = false from
    List.isEmpty_eq_false.mpr (natToChars_ne_nil n)]
  rfl

theorem no_dash_natToChars (n : Nat) : ∀ c ∈ natToChars n, isDash c = false :=
  fun c hc => isDig_not_dash (natToChars_all_dig n c hc)

theorem wf_serializeRec (w l t : Int) (hw : 0 ≤ w) (hl : 0 ≤ l) (ht : 0 ≤ t) :
    isWellFormedRecord (serializeRec w l t).data = true := by
  unfold serializeRec
  by_cases h0 : 0 < t
  · rw [if_pos h0]
    show isWellFormedRecord
      ((intToChars w ++ '-' :: intToChars l) ++ '-' :: intToChars t) = true
    rw [show (intToChars w ++ '-' :: intToChars l) ++ '-' :: intToChars t =
        intToChars w ++ '-' :: (intToChars l ++ '-' :: intToChars t) by simp]
    rw [intToChars_nonneg hw, intToChars_nonneg hl, intToChars_nonneg ht]
    unfold isWellFormedRecord
    rw [splitDash_append_dash _ _ (no_dash_natToChars _),
      splitDash_append_dash _ _ (no_dash_natToChars _),
      splitDash_of_no_dash _ (no_dash_natToChars _)]
    simp [isDigStr_natToChars]
  · rw [if_neg h0]
    show isWellFormedRecord (intToChars w ++ '-' :: intToChars l) = true
    rw [intToChars_nonneg hw, intToChars_nonneg hl]
    unfold isWellFormedRecord
    rw [splitDash_append_dash _ _ (no_dash_natToChars _),
      splitDash_of_no_dash _ (no_dash_natToChars _)]
    simp [isDigStr_natToChars]

theorem isDigStr_parts {p : List Char} (h : isDigStr p = true) :
    parseIntJS p = some (digitsVal p : Int) := by
  unfold isDigStr at h
  rw [Bool.and_eq_true] at h
  exact parseIntJS_digits p
    (by
      intro e
      rw [e] at h
      simp at h)
    (List.all_eq_true.mp h.2)

theorem wf_revertRecord_preserved (record : String) (result : GameResult)
    (h : isWellFormedRecord record.data = true) :
    isWellFormedRecord (revertRecord record result).data = true := by
  unfold isWellFormedRecord at h
  split at h
  case _ a b heq =>
    rw [Bool.and_eq_true] at h
    have hp : partsOf record.data = [some (digitsVal a : Int), some (digitsVal b : Int)] := by
      unfold partsOf
      rw [heq]
      simp [isDigStr_parts h.1, isDigStr_parts h.2]
    rw [revertRecord_formula₂ record result _ _ hp]
    apply wf_serializeRec
    · split_ifs <;> positivity
    · split_ifs <;> positivity
    · omega
  case _ a b c heq =>
    rw [Bool.and_eq_true, Bool.and_eq_true] at h
    have hp : partsOf record.data =
        [some (digitsVal a : Int), some (digitsVal b : Int), some (digitsVal c : Int)] := by
      unfold partsOf
      rw [heq]
      simp [isDigStr_parts h.1.1, isDigStr_parts h.1.2, isDigStr_parts h.2]
    rw [revertRecord_formula₃ record result _ _ _ hp]
    apply wf_serializeRec
    · split_ifs <;> positivity
    · split_ifs <;> positivity
    · split_ifs <;> positivity
  case _ =>
    exact absurd h (by simp)

theorem preGame_eq_revert_chars (cs : List Char) (result : GameResult) :
    getPreGameRecordChars cs result = revertRecordChars cs result := by
  unfold getPreGameRecordChars revertRecordChars
  simp only [jcond_eq]

theorem revertRecord_formula_or (record : String) (result : GameResult)
    (w l t : Int)
    (h : partsOf record.data = [some w, some l] ∧ t = 0 ∨
      partsOf record.data = [some w, some l, some t]) :
    revertRecord record result =
      serializeRec (if result = .win then max 0 (w - 1) else w)
        (if result = .loss then max 0 (l - 1) else l)
        (if result = .tie then max 0 (t - 1) else t) := by
  rcases h with ⟨h2, ht0⟩ | h3
  · subst ht0
    rw [revertRecord_formula₂ record result w l h2]
    have ht : (if result = GameResult.tie then max 0 ((0 : Int) - 1) else 0) = 0 := by
      split_ifs
      · decide
      · rfl
    rw [ht]
  · exact revertRecord_formula₃ record result w l t h3

theorem eqExceptRecords_refl (g : Game) : eqExceptRecords g g :=
  ⟨rfl, rfl, rfl, rfl, rfl, rfl, rfl, rfl, rfl, rfl, rfl, rfl, rfl, rfl, rfl, rfl, rfl, rfl⟩

theorem eqExceptRecords_update (g : Game) (x y : String) :
    eqExceptRecords g { g with homeRecord := x, awayRecord := y } :=
  ⟨rfl, rfl, rfl, rfl, rfl, rfl, rfl, rfl, rfl, rfl, rfl, rfl, rfl, rfl, rfl, rfl, rfl, rfl⟩

/-!  Claim theorems. -/

/-- C1: The excitement scoring engine's output always lies in [0.0, 10.0];
it is exactly 0.0 when the game state is "pre" regardless of the trace, and
on every non-pre path (fallback and trace-based alike) the final clamp
forces the value into [1.0, 10.0], so the engine never emits a negative
value.  (Engine modelled from the spec, since the backend source is not
among the provided files.) -/
theorem excitement_score_bounds (trace : List ℚ) (homeScore awayScore : Nat)
    (isOvertime : Bool) (state : GameState) :
    (0 ≤ excitementScore trace homeScore awayScore isOvertime state ∧
      excitementScore trace homeScore awayScore isOvertime state ≤ 10) ∧
    (state = .pre → excitementScore trace homeScore awayScore isOvertime state = 0) ∧
    (state ≠ .pre → 1 ≤ excitementScore trace homeScore awayScore isOvertime state) := by
  unfold excitementScore
  by_cases hs : state = .pre
  · rw [if_pos hs]
    exact ⟨⟨le_refl 0, by norm_num⟩, fun _ => rfl, fun hne => absurd hs hne⟩
  · rw [if_neg hs]
    have h1 : ∀ x : ℚ, 1 ≤ clampScore x := fun x => le_max_left 1 _
    have h10 : ∀ x : ℚ, clampScore x ≤ 10 :=
      fun x => max_le (by norm_num) (min_le_left 10 x)
    exact ⟨⟨le_trans (by norm_num) (h1 _), h10 _⟩,
      fun hpre => absurd hpre hs, fun _ => h1 _⟩

/-- C1 witness: concrete evaluations discharging the hypotheses of
`excitement_score_bounds`. -/
theorem excitement_score_bounds_witness :
    excitementScore [] 0 0 false .pre = 0 ∧
      1 ≤ excitementScore [] 0 0 false .post :=
  ⟨(excitement_score_bounds [] 0 0 false .pre).2.1 rfl,
    (excitement_score_bounds [] 0 0 false .post).2.2 (by decide)⟩

/-- C2: for every record string with a component that does not parse into an
integer (e.g. "TBD") and every result, `revertRecord` returns the input
string unchanged; the embedding is a total function, so no exception can be
raised. -/
theorem revertRecord_malformed_unchanged (record : String) (result : GameResult)
    (h : ∃ p ∈ splitDash record.data, parseIntJS p = none) :
    revertRecord record result = record :=
  malformed_unchanged record result h

/-- C2 witness: `"TBD"` is returned unchanged for two of the results. -/
theorem revertRecord_malformed_unchanged_witness :
    revertRecord "TBD" GameResult.win = "TBD" ∧
      revertRecord "TBD" GameResult.tie = "TBD" :=
  ⟨revertRecord_malformed_unchanged "TBD" GameResult.win (by decide),
    revertRecord_malformed_unchanged "TBD" GameResult.tie (by decide)⟩

/-- C3: on a well-formed record (components `w`, `l` and optionally `t`, all
non-negative) the reverter decrements exactly the component named by the
result by 1, floored at 0 (the tie count defaulting to 0 when absent), and
leaves the other components' numeric values unchanged, re-serializing the
resulting components. -/
theorem revertRecord_decrements (record : String) (result : GameResult)
    (w l t : Int) (hw : 0 ≤ w) (hl : 0 ≤ l) (ht : 0 ≤ t)
    (h : partsOf record.data = [some w, some l] ∧ t = 0 ∨
      partsOf record.data = [some w, some l, some t]) :
    revertRecord record result =
      serializeRec (if result = .win then max 0 (w - 1) else w)
        (if result = .loss then max 0 (l - 1) else l)
        (if result = .tie then max 0 (t - 1) else t) :=
  revertRecord_formula_or record result w l t h

/-- C3 witness: reverting `"5-2"` with `win` yields `"4-2"`, and reverting
`"0-0"` with `loss` (or `win`) stays `"0-0"`. -/
theorem revertRecord_decrements_witness :
    revertRecord "5-2" GameResult.win = "4-2" ∧
      revertRecord "0-0" GameResult.loss = "0-0" ∧
      revertRecord "0-0" GameResult.win = "0-0" :=
  ⟨(revertRecord_decrements "5-2" GameResult.win 5 2 0 (by decide) (by decide)
      (by decide) (Or.inl ⟨by decide, rfl⟩)).trans (by decide),
    (revertRecord_decrements "0-0" GameResult.loss 0 0 0 (by decide) (by decide)
      (by decide) (Or.inl ⟨by decide, rfl⟩)).trans (by decide),
    (revertRecord_decrements "0-0" GameResult.win 0 0 0 (by decide) (by decide)
      (by decide) (Or.inl ⟨by decide, rfl⟩)).trans (by decide)⟩

/-- C4: on a well-formed record the reverter re-serializes its output with
the tie suffix exactly when the resulting tie count is strictly positive,
and as `wins-losses` otherwise. -/
theorem revertRecord_tie_suffix (record : String) (result : GameResult)
    (w l t : Int) (hw : 0 ≤ w) (hl : 0 ≤ l) (ht : 0 ≤ t)
    (h : partsOf record.data = [some w, some l] ∧ t = 0 ∨
      partsOf record.data = [some w, some l, some t]) :
    (0 < (if result = .tie then max 0 (t - 1) else t) →
      revertRecord record result =
        ⟨intToChars (if result = .win then max 0 (w - 1) else w) ++
          '-' :: intToChars (if result = .loss then max 0 (l - 1) else l) ++
          '-' :: intToChars (if result = .tie then max 0 (t - 1) else t)⟩) ∧
    ((if result = .tie then max 0 (t - 1) else t) ≤ 0 →
      revertRecord record result =
        ⟨intToChars (if result = .win then max 0 (w - 1) else w) ++
          '-' :: intToChars (if result = .loss then max 0 (l - 1) else l)⟩) := by
  have master := revertRecord_formula_or record result w l t h
  constructor
  · intro h0
    rw [master]
    unfold serializeRec
    rw [if_pos h0]
  · intro h0
    rw [master]
    unfold serializeRec
    rw [if_neg (not_lt.mpr h0)]

/-- C4 witness: reverting `"3-3-1"` with `tie` drops the suffix, yielding
`"3-3"`; reverting `"4-2-1"` with `win` keeps it, yielding `"3-2-1"`. -/
theorem revertRecord_tie_suffix_witness :
    revertRecord "3-3-1" GameResult.tie = "3-3" ∧
      revertRecord "4-2-1" GameResult.win = "3-2-1" :=
  ⟨((revertRecord_tie_suffix "3-3-1" GameResult.tie 3 3 1 (by decide) (by decide)
      (by decide) (Or.inr (by decide))).2 (by decide)).trans (by decide),
    ((revertRecord_tie_suffix "4-2-1" GameResult.win 4 2 1 (by decide) (by decide)
      (by decide) (Or.inr (by decide))).1 (by decide)).trans (by decide)⟩

/-- C5 counterexample: the input `"5"` does not match `\d+-\d+(-\d+)?`, yet
the reverter does not return it unchanged (it returns `"4-undefined"`), so
the claim's "every other input string" clause is false as stated. -/
theorem record_format_contract_counterexample :
    isWellFormedRecord ("5" : String).data = false ∧
      revertRecord "5" GameResult.win ≠ "5" := by decide

/-- C5 (amended): for every input matching `\d+-\d+(-\d+)?` the output again
matches that format, and every input with a component that fails integer
parsing is returned unchanged; inputs outside both classes (which parse but
do not match, e.g. `"5"` or `"+3-2"`) may be rewritten. -/
theorem record_format_contract_amended (record : String) (result : GameResult) :
    (isWellFormedRecord record.data = true →
      isWellFormedRecord (revertRecord record result).data = true) ∧
    ((∃ p ∈ splitDash record.data, parseIntJS p = none) →
      revertRecord record result = record) :=
  ⟨wf_revertRecord_preserved record result, malformed_unchanged record result⟩

/-- C5 witness: a well-formed input yields a well-formed output, and an
unparsable input is unchanged. -/
theorem record_format_contract_amended_witness :
    isWellFormedRecord (revertRecord "5-2" GameResult.tie).data = true ∧
      revertRecord "x-2" GameResult.win = "x-2" :=
  ⟨(record_format_contract_amended "5-2" GameResult.tie).1 (by decide),
    (record_format_contract_amended "x-2" GameResult.win).2 (by decide)⟩

/-- C6: the duplicate reversion implementation in the display component
(`getPreGameRecord` in GameCard.tsx) agrees with the service-layer
`revertRecord` on every record string and every result: the two embeddings
are equal as functions. -/
theorem getPreGameRecord_eq_revertRecord (record : String) (result : GameResult) :
    getPreGameRecord record result = revertRecord record result := by
  unfold getPreGameRecord revertRecord
  rw [preGame_eq_revert_chars]

/-- C7: the GameResult used for record reversion is `win` exactly when the
team's score is strictly greater than its opponent's, `loss` exactly when
strictly less, and `tie` exactly when equal — in the service-layer
computation and in the game card's, for both the home and the away team. -/
theorem gameResult_from_scores (s o : Int) :
    (computeResultService (some s) (some o) = .win ↔ o < s) ∧
    (computeResultService (some s) (some o) = .loss ↔ s < o) ∧
    (computeResultService (some s) (some o) = .tie ↔ s = o) ∧
    (computeResultCard true s o = .win ↔ o < s) ∧
    (computeResultCard true s o = .loss ↔ s < o) ∧
    (computeResultCard true s o = .tie ↔ s = o) ∧
    (computeResultCard false s o = .win ↔ s < o) ∧
    (computeResultCard false s o = .loss ↔ o < s) ∧
    (computeResultCard false s o = .tie ↔ s = o) := by
  rcases lt_trichotomy s o with h | h | h
  · simp only [computeResultService, computeResultCard, jsGT, jsLT]
    simp [h, lt_asymm h, ne_of_lt h]
  · subst h
    simp [computeResultService, computeResultCard, jsGT, jsLT]
  · simp only [computeResultService, computeResultCard, jsGT, jsLT]
    simp [h, lt_asymm h, ne_of_gt h]

/-- C8: the record reverter is deterministic (and, being embedded as a pure
function of its two arguments, stateless): identical inputs give identical
outputs. -/
theorem revertRecord_deterministic (r₁ r₂ : String) (res₁ res₂ : GameResult)
    (h₁ : r₁ = r₂) (h₂ : res₁ = res₂) :
    revertRecord r₁ res₁ = revertRecord r₂ res₂ := by
  rw [h₁, h₂]

/-- C8 witness: a concrete pair of identical calls. -/
theorem revertRecord_deterministic_witness :
    revertRecord "5-2" GameResult.win = revertRecord "5-2" GameResult.win :=
  revertRecord_deterministic "5-2" "5-2" GameResult.win GameResult.win rfl rfl

/-- C9: `adjustRecordsForFutureWeek` preserves the length and order of its
input and touches only the `homeRecord`/`awayRecord` fields; it returns the
input list entirely unchanged when `currentWeek > 18`, when
`viewingWeek > 18`, when `viewingWeek ≤ currentWeek`, or when the fetch of
current-week results fails. -/
theorem adjustRecords_frame (games : List Game) (viewingWeek currentWeek : Int)
    (fetchOutcome : FetchOutcome) :
    (adjustRecordsForFutureWeek games viewingWeek currentWeek fetchOutcome).length =
      games.length ∧
    List.Forall₂ eqExceptRecords games
      (adjustRecordsForFutureWeek games viewingWeek currentWeek fetchOutcome) ∧
    (currentWeek > 18 →
      adjustRecordsForFutureWeek games viewingWeek currentWeek fetchOutcome = games) ∧
    (viewingWeek > 18 →
      adjustRecordsForFutureWeek games viewingWeek currentWeek fetchOutcome = games) ∧
    (viewingWeek ≤ currentWeek →
      adjustRecordsForFutureWeek games viewingWeek currentWeek fetchOutcome = games) ∧
    (fetchOutcome = .fail →
      adjustRecordsForFutureWeek games viewingWeek currentWeek fetchOutcome = games) := by
  unfold adjustRecordsForFutureWeek
  by_cases h1 : currentWeek > 18
  · rw [if_pos h1]
    exact ⟨rfl, List.forall₂_same.mpr (fun g _ => eqExceptRecords_refl g),
      fun _ => rfl, fun _ => rfl, fun _ => rfl, fun _ => rfl⟩
  · rw [if_neg h1]
    by_cases h2 : viewingWeek > 18 ∨ viewingWeek ≤ currentWeek
    · rw [if_pos h2]
      exact ⟨rfl, List.forall₂_same.mpr (fun g _ => eqExceptRecords_refl g),
        fun _ => rfl, fun _ => rfl, fun _ => rfl, fun _ => rfl⟩
    · rw [if_neg h2]
      cases fetchOutcome with
      | fail =>
        exact ⟨rfl, List.forall₂_same.mpr (fun g _ => eqExceptRecords_refl g),
          fun _ => rfl, fun _ => rfl, fun _ => rfl, fun _ => rfl⟩
      | ok events =>
        refine ⟨List.length_map games _, ?_,
          fun h => absurd h h1, fun h => absurd (Or.inl h) h2,
          fun h => absurd (Or.inr h) h2, fun h => nomatch h⟩
        apply List.forall₂_map_right_iff.mpr
        apply List.forall₂_same.mpr
        intro g _
        exact eqExceptRecords_update g _ _

/-- A concrete game used by witnesses. -/
def exampleGame : Game :=
  { id := "401"
    homeTeam := "Bears"
    awayTeam := "Lions"
    homeTeamLogo := none
    awayTeamLogo := none
    homeScore := 24
    awayScore := 20
    homeRecord := "5-2"
    awayRecord := "4-3"
    status := "Final"
    kickoffTime := "1:00 PM"
    dayOfWeek := "SUN"
    dateLabel := "11/23"
    weekLabel := "Week 12"
    excitementScore := none
    spoilerData := { homeScore := .str "24", awayScore := .str "20", summary := "x" }
    broadcaster := none
    isUpcoming := some false
    isLive := some false
    odds := none }

/-- C9 witness: the unchanged-return conditions at concrete inputs. -/
theorem adjustRecords_frame_witness :
    adjustRecordsForFutureWeek [exampleGame] 20 19 .fail = [exampleGame] ∧
      adjustRecordsForFutureWeek [exampleGame] 10 12 .fail = [exampleGame] ∧
      adjustRecordsForFutureWeek [exampleGame] 15 12 .fail = [exampleGame] :=
  ⟨(adjustRecords_frame [exampleGame] 20 19 .fail).2.2.1 (by decide),
    (adjustRecords_frame [exampleGame] 10 12 .fail).2.2.2.2.1 (by decide),
    (adjustRecords_frame [exampleGame] 15 12 .fail).2.2.2.2.2 rfl⟩

/-- C10: `getDisplayRecord` returns the current record unchanged whenever
the game's status is not "Final" or the score has been revealed; only for
an unrevealed final game does it return the reverted pre-game record,
computed by the record reverter with the result derived from the final
scores. -/
theorem getDisplayRecord_spoiler_safe (game : Game) (isRevealed : Bool)
    (currentRecord : String) (isHome : Bool) :
    ((game.status ≠ "Final" ∨ isRevealed = true) →
      getDisplayRecord game isRevealed currentRecord isHome = currentRecord) ∧
    (game.status = "Final" → isRevealed = false →
      getDisplayRecord game isRevealed currentRecord isHome =
        getPreGameRecord currentRecord
          (computeResultCard isHome game.homeScore game.awayScore)) := by
  unfold getDisplayRecord
  by_cases hf : game.status = "Final"
  · cases isRevealed
    · refine ⟨fun h => ?_, fun _ _ => ?_⟩
      · rcases h with h | h
        · exact absurd hf h
        · exact absurd h (by simp)
      · simp [hf]
    · refine ⟨fun _ => ?_, fun _ h => absurd h (by simp)⟩
      simp [hf]
  · refine ⟨fun _ => ?_, fun h _ => absurd h hf⟩
    simp [hf]

/-- C10 witness: a revealed final game keeps the current record, and an
unrevealed final game shows the reverted record. -/
theorem getDisplayRecord_spoiler_safe_witness :
    getDisplayRecord exampleGame true "5-2" true = "5-2" ∧
      getDisplayRecord exampleGame false "5-2" true =
        getPreGameRecord "5-2"
          (computeResultCard true exampleGame.homeScore exampleGame.awayScore) :=
  ⟨(getDisplayRecord_spoiler_safe exampleGame true "5-2" true).1 (Or.inr rfl),
    (getDisplayRecord_spoiler_safe exampleGame false "5-2" true).2 rfl rfl⟩

end NoSpoilers
